import Mathlib

/-!
Verification of the Neural Style Transfer implementation (src/nst.ipynb).

The numeric embedding uses exact rationals (`ℚ`) for tensor elements, so
the algebraic identities of the loss formulas can be settled exactly.
Activation tensors of shape (channels, height, width) are total functions
on `Fin` index types; the source's `view`/reshape operations become index
arithmetic on the row-major flattening.
-/

namespace NST

/-- An activation tensor of shape (channels, height, width): the value at
channel `c`, row `h`, column `w`.  Element type is `ℚ` (exact arithmetic). -/
abbrev Activation (C H W : ℕ) : Type := Fin C → Fin H → Fin W → ℚ

/-- In `ℕ`, a positive product has positive factors. -/
lemma pos_of_mul_pos {a b : ℕ} (h : 0 < a * b) : 0 < a ∧ 0 < b := by
  constructor
  · rcases Nat.eq_zero_or_pos a with rfl | ha
    · simp at h
    · exact ha
  · rcases Nat.eq_zero_or_pos b with rfl | hb
    · simp at h
    · exact hb

/-- Row-major index bound: if `i < C` and `p < N` then `i * N + p < C * N`. -/
lemma mul_add_lt {i C N p : ℕ} (hi : i < C) (hp : p < N) : i * N + p < C * N :=
  calc i * N + p < i * N + N := Nat.add_lt_add_left hp _
    _ = (i + 1) * N := (Nat.succ_mul i N).symm
    _ ≤ C * N := Nat.mul_le_mul_right N hi

/-- The spatial row of flattened position `p`: the quotient `p / W`. -/
def unflattenH {H W : ℕ} (p : Fin (H * W)) : Fin H :=
  have hW : 0 < H ∧ 0 < W :=
    pos_of_mul_pos (Nat.lt_of_le_of_lt (Nat.zero_le _) p.isLt)
  ⟨p / W, (Nat.div_lt_iff_lt_mul hW.2).mpr p.isLt⟩

/-- The spatial column of flattened position `p`: the remainder `p % W`. -/
def unflattenW {H W : ℕ} (p : Fin (H * W)) : Fin W :=
  have hW : 0 < H ∧ 0 < W :=
    pos_of_mul_pos (Nat.lt_of_le_of_lt (Nat.zero_le _) p.isLt)
  ⟨p % W, Nat.mod_lt _ hW.2⟩

/-- The row-major flattening `feature.view(channels, height * width)` of one
activation tensor: entry `(c, p)` is the element at spatial position
`(p / W, p % W)`. -/
def flatten {C H W : ℕ} (f : Activation C H W) (c : Fin C) (p : Fin (H * W)) : ℚ :=
  f c (unflattenH p) (unflattenW p)

/-- The unnormalized Gram matrix
`feature.view(C, H*W).mm(feature.view(C, H*W).t())`, exactly as the
optimization loop computes `G` and `A` inline (no normalization). -/
def gramUnnormalized {C H W : ℕ} (f : Activation C H W) (i j : Fin C) : ℚ :=
  ∑ p : Fin (H * W), flatten f i p * flatten f j p

/-- The source's `gram_matrix` on a single image's activation (the batch-1
case in which the source ever calls it): the product of the flattened view
with its transpose, divided elementwise by `channels * height * width`. -/
def gram_matrix {C H W : ℕ} (f : Activation C H W) (i j : Fin C) : ℚ :=
  gramUnnormalized f i j / (C * H * W)

/-- The source `content_loss(generated_feature, content_feature)`:
`torch.mean((generated_feature - content_feature) ** 2)`, the mean of
element-wise squared differences (population mean over all elements). -/
def content_loss {C H W : ℕ} (x y : Activation C H W) : ℚ :=
  (∑ c, ∑ h, ∑ w, (x c h w - y c h w) ^ 2) / (C * H * W)

/-- The source `style_loss(generated_feature, style_feature)`:
`torch.mean((G - A) ** 2)` where `G`, `A` are the (normalized) `gram_matrix`
outputs of the two features; the mean runs over the `C × C` Gram entries. -/
def style_loss {C H W : ℕ} (g s : Activation C H W) : ℚ :=
  (∑ i, ∑ j, (gram_matrix g i j - gram_matrix s i j) ^ 2) / (C * C)

/-- The per-layer style term exactly as the optimization loop accumulates it:
`torch.mean((G - A) ** 2)` with `G`, `A` the *unnormalized* inline Gram
products (the loop body never divides by `channels * height * width`). -/
def styleLossInline {C H W : ℕ} (g s : Activation C H W) : ℚ :=
  (∑ i, ∑ j, (gramUnnormalized g i j - gramUnnormalized s i j) ^ 2) / (C * C)

/-! ## The optimization loop

The loop of the final notebook cell, embedded with its environment made
explicit.  The feature extractor (`model`, a frozen VGG slice) is an opaque
deterministic function producing one activation per configured layer; the
autodiff/optimizer step (`zero_grad` + `backward` + `optimizer.step()`) is an
opaque in-place update of the candidate image; `save_image` is a fallible
I/O action.  Python exception semantics are modelled by the loop returning,
besides its final state, `some e` when an uncaught exception `e` escaped. -/

/-- Reference configuration constant: `total_steps = 10000`. -/
def total_steps : ℕ := 10000

/-- Reference configuration constant: `learning_rate = 0.001`. -/
def learning_rate : ℚ := 1 / 1000

/-- Reference configuration constant: `alpha = 1` (content weight). -/
def alpha : ℚ := 1

/-- Reference configuration constant: `beta = 0.01` (style weight). -/
def beta : ℚ := 1 / 100

/-- Reference reporting/checkpoint interval: the literal `200` in
`if step % 200 == 0`. -/
def report_interval : ℕ := 200

/-- The environment of the optimization loop over an image type `Img`:
layer shapes, hyperparameters, the feature extractor, the opaque
optimizer update, and the fallible checkpoint writer. -/
structure LoopConfig (Img : Type) where
  L : ℕ
  ch : Fin L → ℕ
  ht : Fin L → ℕ
  wd : Fin L → ℕ
  total_steps : ℕ
  interval : ℕ
  alpha : ℚ
  beta : ℚ
  model : Img → (l : Fin L) → Activation (ch l) (ht l) (wd l)
  update : ℕ → Img → Img
  save : ℕ → Img → Except String Unit

/-- One progress record, as printed at each reporting interval:
`{step, content_loss, style_loss, total_loss}`. -/
structure ProgressRecord where
  step : ℕ
  content_loss : ℚ
  style_loss : ℚ
  total_loss : ℚ

/-- The loop's mutable environment: the candidate image tensor `generated`
and the progress records emitted so far. -/
structure LoopSt (Img : Type) where
  generated : Img
  records : List ProgressRecord

/-- The `c_loss` accumulator: the loop body's running content-loss sum over the extracted
layers (`c_loss += torch.mean((gen_feature - orig_feature)**2)`). -/
def cLossOf {Img : Type} (cfg : LoopConfig Img) (g o : Img) : ℚ :=
  ∑ l, content_loss (cfg.model g l) (cfg.model o l)

/-- The `s_loss` accumulator: the loop body's running style-loss sum over the extracted
layers (`s_loss += torch.mean((G - A)**2)` with inline unnormalized `G`, `A`). -/
def sLossOf {Img : Type} (cfg : LoopConfig Img) (g s : Img) : ℚ :=
  ∑ l, styleLossInline (cfg.model g l) (cfg.model s l)

/-- The loop from step `step` with `fuel` iterations left.  Per iteration:
compute `c_loss`, `s_loss`, `total_loss` from the current candidate; apply
the optimizer update; if `step % interval == 0`, print a progress record
(always) and then attempt `save_image` — a save failure is an uncaught
exception that aborts the loop (`some e`), as in the source. -/
def runFrom {Img : Type} (cfg : LoopConfig Img) (orig sty : Img) :
    ℕ → ℕ → LoopSt Img → LoopSt Img × Option String
  | _, 0, st => (st, none)
  | step, fuel + 1, st =>
    let c := cLossOf cfg st.generated orig
    let s := sLossOf cfg st.generated sty
    let tot := cfg.alpha * c + cfg.beta * s
    let g2 := cfg.update step st.generated
    if step % cfg.interval = 0 then
      let st2 : LoopSt Img := ⟨g2, st.records ++ [⟨step, c, s, tot⟩]⟩
      match cfg.save step g2 with
      | .error e => (st2, some e)
      | .ok _ => runFrom cfg orig sty (step + 1) fuel st2
    else
      runFrom cfg orig sty (step + 1) fuel ⟨g2, st.records⟩

/-- The line `generated = original_img.clone()`: the candidate starts as an exact
copy of the content image. -/
def generatedInit {Img : Type} (orig : Img) : Img := orig

/-- The loop `for step in range(total_steps)`: the full optimization run from the
initial candidate with empty record list. -/
def runLoop {Img : Type} (cfg : LoopConfig Img) (orig sty : Img) :
    LoopSt Img × Option String :=
  runFrom cfg orig sty 0 cfg.total_steps ⟨generatedInit orig, []⟩

/-- The loop-state trajectory of `for step in range(T)` seen as the
state machine `Initialized → Running(0..T-1) → Completed`. -/
inductive LoopPhase where
  | Initialized : LoopPhase
  | Running : ℕ → LoopPhase
  | Completed : LoopPhase
deriving DecidableEq

/-- The sequence of loop phases a completed run passes through. -/
def phaseTrace (T : ℕ) : List LoopPhase :=
  LoopPhase.Initialized :: ((List.range T).map LoopPhase.Running ++ [LoopPhase.Completed])

/-- Number of reporting steps (`step % I == 0`) among
`step, step+1, ..., step+fuel-1`, mirroring `runFrom`'s recursion. -/
def emitCount (I : ℕ) : ℕ → ℕ → ℕ
  | _, 0 => 0
  | step, fuel + 1 => (if step % I = 0 then 1 else 0) + emitCount I (step + 1) fuel

/-- Counting step: a reporting step at `step` bumps the ceiling-division
counter `(step + I - 1) / I` to `(step + I) / I`. -/
lemma report_step_div {I step : ℕ} (hI : 0 < I) :
    (if step % I = 0 then 1 else 0) + (step + I - 1) / I = (step + I) / I := by
  have h1 : step + I - 1 + 1 = step + I := by omega
  have h2 := Nat.succ_div (step + I - 1) I
  rw [h1] at h2
  rw [h2]
  by_cases hc : step % I = 0
  · have hd : I ∣ step + I := by
      rw [Nat.dvd_add_self_right, Nat.dvd_iff_mod_eq_zero]; exact hc
    rw [if_pos hc, if_pos hd]; omega
  · have hd : ¬ I ∣ step + I := by
      rw [Nat.dvd_add_self_right, Nat.dvd_iff_mod_eq_zero]; exact hc
    rw [if_neg hc, if_neg hd]; omega

/-- Closed form for `emitCount`: the number of reporting steps in
`[step, step + fuel)` is `⌈(step+fuel)/I⌉ - ⌈step/I⌉`, stated additively. -/
lemma emitCount_add_div {I : ℕ} (hI : 0 < I) :
    ∀ fuel step, emitCount I step fuel + (step + I - 1) / I = (step + fuel + I - 1) / I := by
  intro fuel
  induction fuel with
  | zero => intro step; simp [emitCount]
  | succ fuel ih =>
    intro step
    have key : (if step % I = 0 then 1 else 0) + (step + I - 1) / I = (step + I) / I :=
      report_step_div hI
    have harg : step + I = step + 1 + I - 1 := by omega
    have harg2 : step + 1 + fuel + I - 1 = step + (fuel + 1) + I - 1 := by omega
    calc emitCount I step (fuel + 1) + (step + I - 1) / I
        = emitCount I (step + 1) fuel + ((if step % I = 0 then 1 else 0) + (step + I - 1) / I) := by
          simp [emitCount]; omega
      _ = emitCount I (step + 1) fuel + (step + I) / I := by rw [key]
      _ = emitCount I (step + 1) fuel + (step + 1 + I - 1) / I := by rw [← harg]
      _ = (step + 1 + fuel + I - 1) / I := ih (step + 1)
      _ = (step + (fuel + 1) + I - 1) / I := by rw [harg2]

/-- The number of reporting steps among `0, ..., T-1` is `⌈T / I⌉`. -/
lemma emitCount_zero {I : ℕ} (hI : 0 < I) (T : ℕ) :
    emitCount I 0 T = (T + I - 1) / I := by
  have h := emitCount_add_div hI T 0
  have h0 : (0 + I - 1) / I = 0 := Nat.div_eq_of_lt (by omega)
  rw [h0, Nat.add_zero] at h
  rw [h]
  congr 1
  omega

/-- When every save succeeds, `runFrom` completes without error and appends
exactly `emitCount` progress records. -/
lemma runFrom_ok {Img : Type} (cfg : LoopConfig Img)
    (hsave : ∀ n g, cfg.save n g = .ok ()) (orig sty : Img) :
    ∀ fuel step st, (runFrom cfg orig sty step fuel st).2 = none ∧
      (runFrom cfg orig sty step fuel st).1.records.length =
        st.records.length + emitCount cfg.interval step fuel := by
  intro fuel
  induction fuel with
  | zero => intro step st; simp [runFrom, emitCount]
  | succ fuel ih =>
    intro step st
    by_cases h : step % cfg.interval = 0
    · rcases ih (step + 1)
        ⟨cfg.update step st.generated,
          st.records ++ [⟨step, cLossOf cfg st.generated orig, sLossOf cfg st.generated sty,
            cfg.alpha * cLossOf cfg st.generated orig + cfg.beta * sLossOf cfg st.generated sty⟩]⟩
        with ⟨h1, h2⟩
      constructor
      · simp only [runFrom, h, if_pos, hsave]
        exact h1
      · simp only [runFrom, h, if_pos, hsave]
        rw [h2]
        simp [emitCount, h]
        omega
    · rcases ih (step + 1) ⟨cfg.update step st.generated, st.records⟩ with ⟨h1, h2⟩
      constructor
      · simp only [runFrom, h, if_neg, if_false]
        exact h1
      · simp only [runFrom, h, if_neg, if_false]
        rw [h2]
        simp [emitCount, h]

/-- The loop only ever appends to the record list. -/
lemma runFrom_records_mono {Img : Type} (cfg : LoopConfig Img) (orig sty : Img) :
    ∀ fuel step st, ∃ t, (runFrom cfg orig sty step fuel st).1.records = st.records ++ t := by
  intro fuel
  induction fuel with
  | zero => intro step st; exact ⟨[], by simp [runFrom]⟩
  | succ fuel ih =>
    intro step st
    by_cases h : step % cfg.interval = 0
    · rcases hs : cfg.save step (cfg.update step st.generated) with e | u
      · refine ⟨[⟨step, cLossOf cfg st.generated orig, sLossOf cfg st.generated sty,
          cfg.alpha * cLossOf cfg st.generated orig + cfg.beta * sLossOf cfg st.generated sty⟩], ?_⟩
        simp [runFrom, h, hs]
      · rcases ih (step + 1)
          ⟨cfg.update step st.generated,
            st.records ++ [⟨step, cLossOf cfg st.generated orig, sLossOf cfg st.generated sty,
              cfg.alpha * cLossOf cfg st.generated orig + cfg.beta * sLossOf cfg st.generated sty⟩]⟩
          with ⟨t, ht⟩
        refine ⟨⟨step, cLossOf cfg st.generated orig, sLossOf cfg st.generated sty,
          cfg.alpha * cLossOf cfg st.generated orig + cfg.beta * sLossOf cfg st.generated sty⟩ :: t, ?_⟩
        simp only [runFrom, h, if_pos, hs]
        rw [ht]
        simp
    · rcases ih (step + 1) ⟨cfg.update step st.generated, st.records⟩ with ⟨t, ht⟩
      refine ⟨t, ?_⟩
      simp only [runFrom, h, if_neg, if_false]
      exact ht

/-- In `phaseTrace` the `Completed` phase occurs exactly once. -/
lemma phaseTrace_completed_once (T : ℕ) :
    (phaseTrace T).count LoopPhase.Completed = 1 := by
  simp [phaseTrace, List.count_append, List.count_cons, List.count_eq_zero]

/-- A minimal concrete loop environment for closed-form evaluation:
unit images, zero extraction layers, identity optimizer update, and an
always-succeeding checkpoint writer. -/
def trivCfg (T I : ℕ) : LoopConfig Unit where
  L := 0
  ch := Fin.elim0
  ht := Fin.elim0
  wd := Fin.elim0
  total_steps := T
  interval := I
  alpha := alpha
  beta := beta
  model := fun _ l => l.elim0
  update := fun _ g => g
  save := fun _ _ => .ok ()

/-- The same minimal environment with a checkpoint writer that always
fails with an I/O error. -/
def failCfg (T I : ℕ) : LoopConfig Unit where
  L := 0
  ch := Fin.elim0
  ht := Fin.elim0
  wd := Fin.elim0
  total_steps := T
  interval := I
  alpha := alpha
  beta := beta
  model := fun _ l => l.elim0
  update := fun _ g => g
  save := fun _ _ => .error "io-error"

/-- Claim C2, claim as stated is false at the reference configuration: with
`total_steps = 10000` and `report_interval = 200` the loop emits 50 progress
records (at steps 0, 200, ..., 9800), not
`floor(total_steps / report_interval) + 1 = 51` — the step-0 record is one
of the multiples, not an additional record. -/
theorem C2_counterexample :
    (runLoop (trivCfg 10000 200) () ()).1.records.length ≠ 10000 / 200 + 1 := by
  have h := runFrom_ok (trivCfg 10000 200) (fun _ _ => rfl) () () 10000 0 ⟨generatedInit (), []⟩
  have hc : (runLoop (trivCfg 10000 200) () ()).1.records.length =
      emitCount (trivCfg 10000 200).interval 0 10000 := by
    rw [runLoop]
    have h2 := h.2
    simp only [trivCfg] at h2 ⊢
    rw [h2]
    simp
  rw [hc, emitCount_zero (by decide) 10000]
  decide

/-- Claim C2 (amended): if the reporting interval is positive and every checkpoint
write succeeds, the run completes (no exception escapes), the number of
emitted progress records is exactly `⌈total_steps / interval⌉`
(= `(total_steps + interval - 1) / interval`), which counts the record at
step 0 among the multiples of the interval, and the `Completed` phase of the
loop's state machine is reached exactly once.  Each record carries
`{step, content_loss, style_loss, total_loss}` by the type `ProgressRecord`. -/
theorem C2_progress_records {Img : Type} (cfg : LoopConfig Img) (orig sty : Img)
    (hI : 0 < cfg.interval) (hsave : ∀ n g, cfg.save n g = .ok ()) :
    (runLoop cfg orig sty).2 = none ∧
    (runLoop cfg orig sty).1.records.length =
      (cfg.total_steps + cfg.interval - 1) / cfg.interval ∧
    (phaseTrace cfg.total_steps).count LoopPhase.Completed = 1 := by
  have h := runFrom_ok cfg hsave orig sty cfg.total_steps 0 ⟨generatedInit orig, []⟩
  refine ⟨h.1, ?_, phaseTrace_completed_once _⟩
  rw [runLoop, h.2, emitCount_zero hI cfg.total_steps]
  simp

/-- Witness for `C2_progress_records` at a small concrete run
(`total_steps = 10`, `interval = 3`): completes with `⌈10/3⌉ = 4` records. -/
theorem C2_progress_records_witness :
    (runLoop (trivCfg 10 3) () ()).2 = none ∧
    (runLoop (trivCfg 10 3) () ()).1.records.length = (10 + 3 - 1) / 3 ∧
    (phaseTrace 10).count LoopPhase.Completed = 1 :=
  C2_progress_records (trivCfg 10 3) () () (by decide) (fun _ _ => rfl)

/-- Claim C3, claim as stated is false: a failing checkpoint write at a reporting
step escapes the loop (`some "io-error"` is the uncaught exception), so the
run does not continue to completion. -/
theorem C3_counterexample :
    (runLoop (failCfg 1 200) () ()).2 = some "io-error" ∧
    (runLoop (failCfg 1 200) () ()).2 ≠ none := by
  constructor
  · rfl
  · intro h
    simp [runLoop, runFrom, failCfg] at h

/-- Claim C3 (amended): the source wraps `save_image` in no handler, so if the
checkpoint write fails at the first reporting step (step 0, which always
reports since `0 % interval = 0`), the raised error propagates past the loop
boundary and the run aborts there; the failure itself leaves the candidate
tensor unchanged — at abort the candidate holds exactly the value produced
by step 0's optimizer update, and the step-0 progress record was already
emitted. -/
theorem C3_save_failure {Img : Type} (cfg : LoopConfig Img) (orig sty : Img)
    (e : String) (hfail : ∀ n g, cfg.save n g = .error e) (hT : 0 < cfg.total_steps) :
    (runLoop cfg orig sty).2 = some e ∧
    (runLoop cfg orig sty).1.generated = cfg.update 0 (generatedInit orig) ∧
    (runLoop cfg orig sty).1.records.length = 1 := by
  obtain ⟨fuel, hfuel⟩ : ∃ fuel, cfg.total_steps = fuel + 1 :=
    ⟨cfg.total_steps - 1, by omega⟩
  rw [runLoop, hfuel]
  simp [runFrom, Nat.zero_mod, hfail]

/-- Witness for `C3_save_failure`: a 1-step run whose checkpoint writer
always fails aborts with the I/O error, one record emitted. -/
theorem C3_save_failure_witness :
    (runLoop (failCfg 1 200) () ()).2 = some "io-error" ∧
    (runLoop (failCfg 1 200) () ()).1.generated = (failCfg 1 200).update 0 (generatedInit ()) ∧
    (runLoop (failCfg 1 200) () ()).1.records.length = 1 :=
  C3_save_failure (failCfg 1 200) () () "io-error" (fun _ _ => rfl) (by decide)

/-! ## Loss aggregation -/

/-- The loop's `loss = 0; loss += term` accumulation over the per-layer loss
values, as a left fold. -/
def accumLosses (xs : List ℚ) : ℚ := xs.foldl (· + ·) 0

/-- The aggregation `total_loss = alpha * c_loss + beta * s_loss` where `c_loss`/`s_loss`
are the unweighted per-layer accumulations. -/
def aggregateTotal (a b : ℚ) (cs ss : List ℚ) : ℚ :=
  a * accumLosses cs + b * accumLosses ss

/-- The accumulated loss is the plain sum of the per-layer values. -/
lemma accumLosses_eq_sum (xs : List ℚ) : accumLosses xs = xs.sum := by
  rw [accumLosses, List.sum_eq_foldl]

/-- Claim C4 (confirmed): the loop's total loss is exactly
`alpha * (sum of per-layer content losses) + beta * (sum of per-layer style
losses)` — the per-layer sums are unweighted — and it coincides with the
`aggregateTotal` of the per-layer loss lists; `alpha = 0` makes the total
independent of every content loss and `beta = 0` independent of every style
loss. -/
theorem C4_total_loss_aggregation {Img : Type} (cfg : LoopConfig Img)
    (g o st : Img) (a b : ℚ) (cs ss cs' ss' : List ℚ) :
    cfg.alpha * cLossOf cfg g o + cfg.beta * sLossOf cfg g st =
      aggregateTotal cfg.alpha cfg.beta
        (List.ofFn fun l => content_loss (cfg.model g l) (cfg.model o l))
        (List.ofFn fun l => styleLossInline (cfg.model g l) (cfg.model st l)) ∧
    aggregateTotal a b cs ss = a * cs.sum + b * ss.sum ∧
    aggregateTotal 0 b cs ss = aggregateTotal 0 b cs' ss ∧
    aggregateTotal a 0 cs ss = aggregateTotal a 0 cs ss' := by
  refine ⟨?_, ?_, ?_, ?_⟩
  · rw [aggregateTotal, accumLosses_eq_sum, accumLosses_eq_sum,
      List.sum_ofFn, List.sum_ofFn]
    rfl
  · rw [aggregateTotal, accumLosses_eq_sum, accumLosses_eq_sum]
  · simp [aggregateTotal]
  · simp [aggregateTotal]

/-- Claim C7 (confirmed): comparing a feature tensor with itself yields exactly
zero content loss and zero style loss (the two Gram matrices coincide). -/
theorem C7_identity_zero_loss (C H W : ℕ) (x : Activation C H W) :
    content_loss x x = 0 ∧ style_loss x x = 0 := by
  constructor
  · simp [content_loss]
  · simp [style_loss]

/-- Claim C8 (confirmed): `content_loss` and `style_loss` are non-negative for all
pairs of same-shaped feature tensors — each is a population mean (sum of
squares divided by element count) of squared terms. -/
theorem C8_losses_nonneg (C H W : ℕ) (x y g s : Activation C H W) :
    0 ≤ content_loss x y ∧ 0 ≤ style_loss g s := by
  constructor
  · apply div_nonneg _ (by positivity)
    apply Finset.sum_nonneg
    intro c _
    apply Finset.sum_nonneg
    intro h _
    apply Finset.sum_nonneg
    intro w _
    exact sq_nonneg _
  · apply div_nonneg _ (by positivity)
    apply Finset.sum_nonneg
    intro i _
    apply Finset.sum_nonneg
    intro j _
    exact sq_nonneg _

/-! ## Gram-matrix algebra -/

/-- Claim C5 (confirmed): for any activation tensor with nonzero spatial extent,
`gram_matrix` is a square channels × channels matrix (by its type
`Fin C → Fin C → ℚ`) that is symmetric: entry `(i, j)` equals entry
`(j, i)`. -/
theorem C5_gram_symmetric (C H W : ℕ) (f : Activation C H W)
    (hsp : 0 < H * W) (i j : Fin C) :
    gram_matrix f i j = gram_matrix f j i := by
  rw [gram_matrix, gram_matrix, gramUnnormalized, gramUnnormalized]
  congr 1
  exact Finset.sum_congr rfl fun p _ => mul_comm _ _

/-- A two-channel constant-free activation used as a concrete witness
input: channel `c` holds the value `c + 1`. -/
def chanAct : Activation 2 1 1 := fun c _ _ => (c : ℚ) + 1

/-- Witness for `C5_gram_symmetric` at the concrete 2×1×1 tensor `chanAct`
and the off-diagonal entry `(0, 1)`. -/
theorem C5_gram_symmetric_witness :
    0 < 1 * 1 ∧ gram_matrix chanAct 0 1 = gram_matrix chanAct 1 0 :=
  ⟨by decide, C5_gram_symmetric 2 1 1 chanAct (by decide) 0 1⟩

/-- The row-major position index of spatial coordinates `(h, w)` in the
flattened `Fin (H * W)`. -/
def posIdx {H W : ℕ} (h : Fin H) (w : Fin W) : Fin (H * W) :=
  ⟨h * W + w, mul_add_lt h.isLt w.isLt⟩

/-- Reshuffling the flattened spatial order of an activation: position `p`
of the result reads position `σ p` of the input, identically in every
channel. -/
def permuteSpatial {C H W : ℕ} (σ : Equiv.Perm (Fin (H * W)))
    (f : Activation C H W) : Activation C H W :=
  fun c h w => flatten f c (σ (posIdx h w))

/-- Recombining the row and column of a flattened position gives it back:
`(p / W) * W + p % W = p`. -/
lemma posIdx_unflatten {H W : ℕ} (p : Fin (H * W)) :
    posIdx (unflattenH p) (unflattenW p) = p := by
  apply Fin.ext
  show ((p : ℕ) / W) * W + (p : ℕ) % W = (p : ℕ)
  have h3 := Nat.div_add_mod (p : ℕ) W
  have h4 : ((p : ℕ) / W) * W = W * ((p : ℕ) / W) := Nat.mul_comm _ _
  omega

/-- Flattening a spatially permuted activation reads the original
flattening through the permutation. -/
lemma flatten_permuteSpatial {C H W : ℕ} (σ : Equiv.Perm (Fin (H * W)))
    (f : Activation C H W) (c : Fin C) (p : Fin (H * W)) :
    flatten (permuteSpatial σ f) c p = flatten f c (σ p) := by
  simp only [flatten, permuteSpatial]
  rw [posIdx_unflatten]

/-- Claim C6 (confirmed): the Gram matrix is invariant under any permutation of
the flattened spatial positions applied identically across all channels —
it depends only on channel-vector inner products. -/
theorem C6_gram_permutation_invariant (C H W : ℕ) (f : Activation C H W)
    (σ : Equiv.Perm (Fin (H * W))) (i j : Fin C) :
    gram_matrix (permuteSpatial σ f) i j = gram_matrix f i j := by
  rw [gram_matrix, gram_matrix, gramUnnormalized, gramUnnormalized]
  congr 1
  calc ∑ p : Fin (H * W), flatten (permuteSpatial σ f) i p * flatten (permuteSpatial σ f) j p
      = ∑ p : Fin (H * W), flatten f i (σ p) * flatten f j (σ p) := by
        exact Finset.sum_congr rfl fun p _ => by
          rw [flatten_permuteSpatial, flatten_permuteSpatial]
    _ = ∑ p : Fin (H * W), flatten f i p * flatten f j p :=
        Equiv.sum_comp σ fun p => flatten f i p * flatten f j p

/-! ## Step-0 content loss -/

/-- Claim C9 (confirmed): since `generated = original_img.clone()` and the feature
extractor is a deterministic function, at step 0 the candidate's features
equal the content image's features at every layer, so the content-loss sum
of the first iteration is exactly zero; consequently the progress record
emitted at step 0 (which always reports, `0 % interval = 0`) carries
`content_loss = 0` — whether or not its checkpoint write succeeds. -/
theorem C9_step0_content_loss_zero {Img : Type} (cfg : LoopConfig Img)
    (orig sty : Img) (hT : 0 < cfg.total_steps) :
    cLossOf cfg (generatedInit orig) orig = 0 ∧
    ∃ r : ProgressRecord, (runLoop cfg orig sty).1.records.head? = some r ∧
      r.step = 0 ∧ r.content_loss = 0 := by
  have hzero : cLossOf cfg (generatedInit orig) orig = 0 := by
    rw [cLossOf]
    apply Finset.sum_eq_zero
    intro l _
    simp [content_loss, generatedInit]
  refine ⟨hzero, ?_⟩
  obtain ⟨fuel, hfuel⟩ : ∃ fuel, cfg.total_steps = fuel + 1 :=
    ⟨cfg.total_steps - 1, by omega⟩
  rw [runLoop, hfuel]
  refine ⟨⟨0, cLossOf cfg (generatedInit orig) orig, sLossOf cfg (generatedInit orig) sty,
    cfg.alpha * cLossOf cfg (generatedInit orig) orig +
      cfg.beta * sLossOf cfg (generatedInit orig) sty⟩, ?_, rfl, hzero⟩
  rcases hs : cfg.save 0 (cfg.update 0 (generatedInit orig)) with e | u
  · simp [runFrom, Nat.zero_mod, hs]
  · have hm := runFrom_records_mono cfg orig sty fuel 1
      ⟨cfg.update 0 (generatedInit orig),
        [⟨0, cLossOf cfg (generatedInit orig) orig, sLossOf cfg (generatedInit orig) sty,
          cfg.alpha * cLossOf cfg (generatedInit orig) orig +
            cfg.beta * sLossOf cfg (generatedInit orig) sty⟩]⟩
    rcases hm with ⟨t, ht⟩
    simp only [runFrom, Nat.zero_mod, if_pos, hs, List.nil_append, Nat.zero_add]
    rw [ht]
    simp

/-- Witness for `C9_step0_content_loss_zero` at the trivial 1-step run. -/
theorem C9_step0_content_loss_zero_witness :
    cLossOf (trivCfg 1 200) (generatedInit ()) () = 0 ∧
    ∃ r : ProgressRecord, (runLoop (trivCfg 1 200) () ()).1.records.head? = some r ∧
      r.step = 0 ∧ r.content_loss = 0 :=
  C9_step0_content_loss_zero (trivCfg 1 200) () () (by decide)

/-! ## C1: the loop's inline Gram computation vs the standalone `gram_matrix` -/

/-- A concrete 1×1×2 candidate feature holding the values `[1, 2]`. -/
def genC1 : Activation 1 1 2 := fun _ _ w => if (w : ℕ) = 0 then 1 else 2

/-- A concrete 1×1×2 style feature holding `[0, 0]`. -/
def styC1 : Activation 1 1 2 := fun _ _ _ => 0

/-- A single-layer loop environment whose extractor returns its input image
(images are themselves 1×1×2 activations), exposing the loop's accumulated
style loss on concrete features. -/
def cfgC1 : LoopConfig (Activation 1 1 2) where
  L := 1
  ch := fun _ => 1
  ht := fun _ => 1
  wd := fun _ => 2
  total_steps := total_steps
  interval := report_interval
  alpha := alpha
  beta := beta
  model := fun img _ => img
  update := fun _ g => g
  save := fun _ _ => .ok ()

/-- Claim C1 (code bug): the loop body's inline Gram product omits the
`/(channels * height * width)` normalization that the notebook's own
`gram_matrix` definition prescribes; on the failing input the inline value
is `5` against `gram_matrix`'s `5/2`, and the style loss the loop
accumulates is `25` while `style_loss` per the LossEngine contract is
`25/4` — so the accumulated per-layer style term does not equal
`style_loss(candidate_feature, style_feature)`. -/
theorem C1_inline_gram_unnormalized :
    gramUnnormalized genC1 0 0 = 5 ∧
    gram_matrix genC1 0 0 = 5 / 2 ∧
    sLossOf cfgC1 genC1 styC1 = 25 ∧
    style_loss genC1 styC1 = 25 / 4 ∧
    styleLossInline genC1 styC1 ≠ style_loss genC1 styC1 := by
  refine ⟨?_, ?_, ?_, ?_, ?_⟩ <;>
    simp [sLossOf, styleLossInline, style_loss, gram_matrix, gramUnnormalized,
      flatten, unflattenH, unflattenW, genC1, styC1, cfgC1,
      Fin.sum_univ_succ, Fin.isValue] <;>
    norm_num

/-! ## C10: the 4-dimensional entry point of `gram_matrix`

The source's `gram_matrix` destructures a 4-D shape
`_, n_channels, height, width = feature.size()` (ignoring the batch size)
and calls `feature.view(n_channels, height * width)`.  `view` succeeds
exactly when the element counts agree:
`batch * channels * height * width = channels * (height * width)`. -/

/-- A dense 4-D tensor of shape (batch, channels, height, width). -/
structure Tensor4 where
  batch : ℕ
  channels : ℕ
  height : ℕ
  width : ℕ
  data : Fin batch → Fin channels → Fin height → Fin width → ℚ

/-- Total element count of a 4-D tensor. -/
def Tensor4.numel (t : Tensor4) : ℕ :=
  t.batch * (t.channels * (t.height * t.width))

/-- The element at flat (row-major) position `n` of a 4-D tensor. -/
def flat4 (t : Tensor4) (n : Fin t.numel) : ℚ :=
  have h0 : 0 < t.batch ∧ 0 < t.channels * (t.height * t.width) :=
    pos_of_mul_pos (Nat.lt_of_le_of_lt (Nat.zero_le _) n.isLt)
  have h1 : 0 < t.channels ∧ 0 < t.height * t.width := pos_of_mul_pos h0.2
  have h2 : 0 < t.height ∧ 0 < t.width := pos_of_mul_pos h1.2
  have hr : (n : ℕ) % (t.channels * (t.height * t.width)) < t.channels * (t.height * t.width) :=
    Nat.mod_lt _ h0.2
  have hr2 : (n : ℕ) % (t.channels * (t.height * t.width)) % (t.height * t.width) <
      t.height * t.width := Nat.mod_lt _ h1.2
  t.data
    ⟨n / (t.channels * (t.height * t.width)), (Nat.div_lt_iff_lt_mul h0.2).mpr n.isLt⟩
    ⟨(n : ℕ) % (t.channels * (t.height * t.width)) / (t.height * t.width),
      (Nat.div_lt_iff_lt_mul h1.2).mpr hr⟩
    ⟨(n : ℕ) % (t.channels * (t.height * t.width)) % (t.height * t.width) / t.width,
      (Nat.div_lt_iff_lt_mul h2.2).mpr hr2⟩
    ⟨(n : ℕ) % (t.channels * (t.height * t.width)) % (t.height * t.width) % t.width,
      Nat.mod_lt _ h2.2⟩

/-- The source `gram_matrix` as written, on a 4-D input: it reads the 4-D
shape, ignores the batch size, and reshapes to
`(channels, height * width)`; the reshape is guarded by `view`'s
element-count check, and on failure raises (modelled as `Except.error`).
On success the entry `(i, j)` is the inner product of flattened rows `i`
and `j`, divided by `channels * height * width`. -/
def gram_matrix4 (t : Tensor4) :
    Except String (Fin t.channels → Fin t.channels → ℚ) :=
  if hv : t.numel = t.channels * (t.height * t.width) then
    .ok (fun i j =>
      (∑ p : Fin (t.height * t.width),
          flat4 t ⟨(i : ℕ) * (t.height * t.width) + p,
            by rw [hv]; exact mul_add_lt i.isLt p.isLt⟩ *
          flat4 t ⟨(j : ℕ) * (t.height * t.width) + p,
            by rw [hv]; exact mul_add_lt j.isLt p.isLt⟩) /
        (t.channels * t.height * t.width))
  else .error "view: shape invalid for input size"

/-- Claim C10 (amended): the reshape inside `gram_matrix` is well-defined — the
element counts `batch * channels * height * width` and
`channels * (height * width)` agree — precisely when the batch dimension is
1 **or** the tensor is empty (`channels * height * width = 0`); hence under
the precondition `batch = 1` every call succeeds and the error branch is
unreachable, while an input with `batch > 1` fails exactly when it has at
least one element. -/
theorem C10_view_shape_guard (t : Tensor4) :
    (gram_matrix4 t).isOk = true ↔
      (t.batch = 1 ∨ t.channels * t.height * t.width = 0) := by
  rw [gram_matrix4]
  have hassoc : t.channels * t.height * t.width = t.channels * (t.height * t.width) :=
    Nat.mul_assoc _ _ _
  by_cases hv : t.numel = t.channels * (t.height * t.width)
  · rw [dif_pos hv]
    simp only [Except.isOk, Except.toBool, true_iff]
    rcases Nat.eq_zero_or_pos (t.channels * (t.height * t.width)) with h0 | hpos
    · right; rw [hassoc]; exact h0
    · left
      have := hv
      rw [Tensor4.numel] at this
      have h1 : t.batch * (t.channels * (t.height * t.width)) =
          1 * (t.channels * (t.height * t.width)) := by rw [this, Nat.one_mul]
      exact Nat.eq_of_mul_eq_mul_right hpos h1
  · rw [dif_neg hv]
    simp only [Except.isOk, Except.toBool, Bool.false_eq_true, false_iff]
    intro h
    apply hv
    rcases h with h1 | h0
    · rw [Tensor4.numel, h1, Nat.one_mul]
    · rw [hassoc] at h0
      rw [Tensor4.numel, h0, Nat.mul_zero]

/-- Wrap a single activation as a batch-1 4-D tensor, as `unsqueeze(0)`
does at image-loading time. -/
abbrev toTensor4 {C H W : ℕ} (f : Activation C H W) : Tensor4 :=
  ⟨1, C, H, W, fun _ => f⟩

/-- At batch 1, flat position `i * (H*W) + p` of the 4-D layout is element
`(i, p)` of the 2-D `view(C, H*W)`. -/
lemma flat4_toTensor4 {C H W : ℕ} (f : Activation C H W) (i : Fin C)
    (p : Fin (H * W)) (hn : (i : ℕ) * (H * W) + (p : ℕ) < (toTensor4 f).numel) :
    flat4 (toTensor4 f) ⟨(i : ℕ) * (H * W) + (p : ℕ), hn⟩ = flatten f i p := by
  have hHW : 0 < H * W := Nat.lt_of_le_of_lt (Nat.zero_le _) p.isLt
  have e1 : ((i : ℕ) * (H * W) + (p : ℕ)) % (C * (H * W)) = (i : ℕ) * (H * W) + (p : ℕ) :=
    Nat.mod_eq_of_lt (mul_add_lt i.isLt p.isLt)
  have e2 : ((i : ℕ) * (H * W) + (p : ℕ)) / (H * W) = i := by
    rw [Nat.mul_comm (i : ℕ) (H * W), Nat.mul_add_div hHW, Nat.div_eq_of_lt p.isLt,
      Nat.add_zero]
  have e3 : ((i : ℕ) * (H * W) + (p : ℕ)) % (H * W) = p := by
    rw [Nat.add_comm, Nat.add_mul_mod_self_right, Nat.mod_eq_of_lt p.isLt]
  have harg : ∀ (a a' : Fin C) (b b' : Fin H) (c c' : Fin W),
      a = a' → b = b' → c = c' → f a b c = f a' b' c' := by
    intro a a' b b' c c' ha hb hc
    rw [ha, hb, hc]
  simp only [flat4, toTensor4, flatten, unflattenH, unflattenW]
  apply harg
  · exact Fin.ext (by show _ % _ / _ = (i : ℕ); rw [e1]; exact e2)
  · exact Fin.ext (by show _ % _ % _ / _ = (p : ℕ) / W; rw [e1, e3])
  · exact Fin.ext (by show _ % _ % _ % _ = (p : ℕ) % W; rw [e1, e3])

/-- Bridge: the source `gram_matrix` applied to a batch-1 input passes the
`view` guard and computes exactly the single-image `gram_matrix` — the
3-D definitions used throughout are the batch-1 case of the 4-D source
function. -/
lemma gram_matrix4_batch1 {C H W : ℕ} (f : Activation C H W) :
    gram_matrix4 (toTensor4 f) = .ok (fun i j => gram_matrix f i j) := by
  have hv : (toTensor4 f).numel =
      (toTensor4 f).channels * ((toTensor4 f).height * (toTensor4 f).width) := by
    simp [toTensor4, Tensor4.numel]
  rw [gram_matrix4, dif_pos hv]
  congr 1
  funext i j
  rw [gram_matrix, gramUnnormalized]
  congr 1
  apply Finset.sum_congr rfl
  intro p _
  rw [flat4_toTensor4 f i p, flat4_toTensor4 f j p]

/-- An empty 4-D tensor with batch size 2 (shape 2×1×0×3). -/
def batchedEmptyT : Tensor4 :=
  ⟨2, 1, 0, 3, fun _ _ h _ => h.elim0⟩

/-- Claim C10, claim as stated is false: for the 2×1×0×3 input the `view`
element-count check passes (`2*1*0*3 = 1*(0*3) = 0`), so `gram_matrix`
succeeds although the batch dimension is 2 > 1 — the reshape being
well-defined is *not* equivalent to `batch = 1`, and inputs with
`batch > 1` do not always fail. -/
theorem C10_counterexample :
    (gram_matrix4 batchedEmptyT).isOk = true ∧ 1 < batchedEmptyT.batch := by
  constructor
  · rfl
  · decide

end NST
